import Mathlib

/-!
# Verification of the libwarp core against its specification

Shallow embedding of the libwarp sources:
* `src/include/libwarp/warp_kernels.hpp` (per-pixel warp kernels),
* `src/src/libwarp.cpp` (library entry points, program cache),
* `src/src/libwarp_internal.hpp` (kernel dispatch, scratch depth buffer),
* `src/etc/snippets.cpp` (motion-vector encoders used by producing shaders).

GPU floating-point arithmetic is modelled over `ℚ` (exact rational
arithmetic); where IEEE-754 special values matter (the unguarded division
in the single-pixel fixup, the FLT_MAX clear value of the scratch depth
buffer) an explicit value type `FV` with finite/infinite/NaN values is
used, and where the bit-level representation matters (the uint32
reinterpretation fed to `atomic_min`) the bit pattern is modelled as `ℕ`
together with its value map `float_bits_val`.
-/

/-! ## Rational helpers -/

/-- `clamp(x, lo, hi)` as used by the C++ sources. -/
def qclamp (x lo hi : ℚ) : ℚ := min (max x lo) hi

/-- Truncation toward zero, the C++ semantics of a float-to-integer cast
(defined through `Int.tdiv` so that it evaluates by kernel reduction). -/
def truncQ (q : ℚ) : ℤ := q.num.tdiv (q.den : ℤ)

theorem truncQ_eq (q : ℚ) : truncQ q = if 0 ≤ q then ⌊q⌋ else ⌈q⌉ := by
  unfold truncQ
  have hden : (0:ℤ) ≤ (q.den : ℤ) := Int.ofNat_nonneg q.den
  split
  · next h =>
    rw [Int.tdiv_eq_ediv (Rat.num_nonneg.mpr h) hden, Rat.floor_def]
  · next h =>
    have hnn : (0:ℤ) ≤ -q.num := by
      have hc : ¬ (0 ≤ q.num) := fun hc => h (Rat.num_nonneg.mp hc)
      omega
    have hneg : q.num.tdiv (q.den : ℤ) = -((-q.num).tdiv (q.den : ℤ)) := by
      rw [Int.neg_tdiv, neg_neg]
    rw [hneg, Int.tdiv_eq_ediv hnn hden]
    have hfloor : (-q.num) / (q.den : ℤ) = ⌊-q⌋ := by
      rw [Rat.floor_def, Rat.num_neg_eq_neg_num, Rat.den_neg_eq_den]
    rw [hfloor, Int.floor_neg, neg_neg]

theorem truncQ_sub_lt (q : ℚ) : |(truncQ q : ℚ) - q| < 1 := by
  rw [truncQ_eq]
  split <;> rw [abs_sub_lt_iff] <;> constructor
  · linarith [Int.floor_le q]
  · linarith [Int.lt_floor_add_one q]
  · linarith [Int.ceil_lt_add_one q]
  · linarith [Int.le_ceil q]

theorem truncQ_nonneg {q : ℚ} (h : 0 ≤ q) : 0 ≤ truncQ q := by
  rw [truncQ_eq, if_pos h]
  exact Int.floor_nonneg.mpr h

theorem truncQ_nonpos {q : ℚ} (h : q ≤ 0) : truncQ q ≤ 0 := by
  rw [truncQ_eq]
  split
  · exact Int.floor_nonpos h
  · exact Int.ceil_le.mpr (by exact_mod_cast h)

theorem truncQ_le_self {q : ℚ} (h : 0 ≤ q) : (truncQ q : ℚ) ≤ q := by
  rw [truncQ_eq, if_pos h]
  exact Int.floor_le q

theorem truncQ_abs_le (q : ℚ) : |(truncQ q : ℚ)| ≤ |q| := by
  rcases le_or_lt 0 q with h | h
  · rw [abs_of_nonneg h, abs_of_nonneg (by exact_mod_cast truncQ_nonneg h)]
    exact truncQ_le_self h
  · have h' : q ≤ 0 := le_of_lt h
    rw [abs_of_nonpos h', abs_of_nonpos (by exact_mod_cast truncQ_nonpos h')]
    rw [truncQ_eq, if_neg (not_le.mpr h)]
    linarith [Int.le_ceil q]

theorem truncQ_pos {q : ℚ} (h : 1 ≤ q) : 0 < truncQ q := by
  rw [truncQ_eq, if_pos (by linarith)]
  exact_mod_cast lt_of_lt_of_le Int.zero_lt_one (Int.le_floor.mpr (by exact_mod_cast h))

theorem truncQ_neg {q : ℚ} (h : q ≤ -1) : truncQ q < 0 := by
  rw [truncQ_eq, if_neg (by linarith)]
  have h1 : ⌈q⌉ ≤ -1 := Int.ceil_le.mpr (by push_cast; linarith)
  omega

/-! ## 2D motion codec

`encode_2d_motion` from `src/etc/snippets.cpp` lines 26-30:
the vector is scaled by 32767, clamped to `[-32767, 32767]`, cast to
`short2` (truncation toward zero) and bit-packed as `[16-bit y][16-bit x]`
(the little-endian `uint32_t` reinterpretation of the short pair puts x
in the low half-word).

`decode_2d_motion` from `src/include/libwarp/warp_kernels.hpp` lines
280-283: `unpack_snorm_2x16(encoded_motion) * 0.5f`. -/

/-- Encode one lane: scale by 32767, clamp, truncate to an integer. -/
def encode_2d_lane (v : ℚ) : ℤ := truncQ (qclamp (v * 32767) (-32767) 32767)

/-- Two's-complement storage of an integer lane in 16 bits. -/
def to_u16 (i : ℤ) : ℕ := (i % 65536).toNat

/-- `encode_2d_motion` (snippets.cpp): pack the two truncated lanes as
`[16-bit y][16-bit x]`. -/
def encode_2d_motion (v : ℚ × ℚ) : ℕ :=
  to_u16 (encode_2d_lane v.2) * 65536 + to_u16 (encode_2d_lane v.1)

/-- Read a 16-bit half-word back as a signed (two's complement) value and
divide by the saturating factor 32767, clamping to `[-1, 1]`.
Modelled from the spec: `unpack_snorm_2x16` comes from the external floor
library (not part of this repository); the spec describes the packed 2D
motion as "two signed 16-bit fixed-point lanes ... scaled by a saturating
integer factor" whose decode "divides back by the same factor", which is
the standard snorm16 semantics `clamp(i / 32767, -1, 1)`. -/
def from_snorm16 (n : ℕ) : ℚ :=
  let i : ℤ := if n < 32768 then (n : ℤ) else (n : ℤ) - 65536
  qclamp ((i : ℚ) / 32767) (-1) 1

/-- Unpack both snorm16 lanes of a 32-bit word (x in the low half). -/
def unpack_snorm_2x16 (u : ℕ) : ℚ × ℚ :=
  (from_snorm16 (u % 65536), from_snorm16 (u / 65536 % 65536))

/-- `decode_2d_motion` (warp_kernels.hpp lines 280-283):
`unpack_snorm_2x16(encoded_motion) * 0.5f`. -/
def decode_2d_motion (u : ℕ) : ℚ × ℚ :=
  ((unpack_snorm_2x16 u).1 * (1/2), (unpack_snorm_2x16 u).2 * (1/2))

theorem encode_2d_lane_abs_le (v : ℚ) : |encode_2d_lane v| ≤ 32767 := by
  have h1 : |qclamp (v * 32767) (-32767) 32767| ≤ 32767 := by
    unfold qclamp
    rw [abs_le]
    constructor
    · exact le_min (le_max_right _ _) (by norm_num)
    · exact min_le_right _ _
  have h2 := truncQ_abs_le (qclamp (v * 32767) (-32767) 32767)
  have : |(encode_2d_lane v : ℚ)| ≤ 32767 := le_trans h2 h1
  exact_mod_cast this

theorem to_u16_lt (i : ℤ) : to_u16 i < 65536 := by
  unfold to_u16
  have h := Int.emod_lt_of_pos i (show (0:ℤ) < 65536 by norm_num)
  have h2 := Int.emod_nonneg i (show (65536:ℤ) ≠ 0 by norm_num)
  omega

/-- Round-trip of the two's complement 16-bit storage for in-range lanes. -/
theorem from_to_u16 (i : ℤ) (h : |i| ≤ 32767) :
    (if to_u16 i < 32768 then ((to_u16 i : ℤ)) else ((to_u16 i : ℤ)) - 65536) = i := by
  rw [abs_le] at h
  unfold to_u16
  rcases le_or_lt 0 i with hp | hn
  · have he : i % 65536 = i := Int.emod_eq_of_lt hp (by omega)
    rw [he]
    have : i.toNat < 32768 := by omega
    rw [if_pos this]
    omega
  · have he : i % 65536 = i + 65536 := by
      omega
    rw [he]
    have h32 : ¬ ((i + 65536).toNat < 32768) := by omega
    rw [if_neg h32]
    omega

theorem qclamp_eq_self {x lo hi : ℚ} (h1 : lo ≤ x) (h2 : x ≤ hi) : qclamp x lo hi = x := by
  unfold qclamp
  rw [max_eq_left h1, min_eq_left h2]

theorem from_snorm16_to_u16 (i : ℤ) (h : |i| ≤ 32767) :
    from_snorm16 (to_u16 i) = (i : ℚ) / 32767 := by
  unfold from_snorm16
  have hr := from_to_u16 i h
  simp only []
  rw [show (if to_u16 i < 32768 then ((to_u16 i : ℤ)) else ((to_u16 i : ℤ)) - 65536) = i from hr]
  have habs : |(i : ℚ)| ≤ 32767 := by exact_mod_cast h
  rw [abs_le] at habs
  exact qclamp_eq_self (by linarith) (by linarith)

theorem encode_2d_motion_lo (v : ℚ × ℚ) :
    encode_2d_motion v % 65536 = to_u16 (encode_2d_lane v.1) := by
  unfold encode_2d_motion
  have h1 := to_u16_lt (encode_2d_lane v.1)
  omega

theorem encode_2d_motion_hi (v : ℚ × ℚ) :
    encode_2d_motion v / 65536 % 65536 = to_u16 (encode_2d_lane v.2) := by
  unfold encode_2d_motion
  have h1 := to_u16_lt (encode_2d_lane v.1)
  have h2 := to_u16_lt (encode_2d_lane v.2)
  omega

/-- The decoded round trip, expressed through the truncated integer lanes. -/
theorem decode_encode_2d_eq (v : ℚ × ℚ) :
    decode_2d_motion (encode_2d_motion v)
      = ((encode_2d_lane v.1 : ℚ) / 65534, (encode_2d_lane v.2 : ℚ) / 65534) := by
  unfold decode_2d_motion unpack_snorm_2x16
  rw [encode_2d_motion_lo, encode_2d_motion_hi,
      from_snorm16_to_u16 _ (encode_2d_lane_abs_le v.1),
      from_snorm16_to_u16 _ (encode_2d_lane_abs_le v.2)]
  simp only [Prod.mk.injEq]
  constructor <;> ring

theorem encode_2d_lane_close {v : ℚ} (h : |v| ≤ 1) :
    |(encode_2d_lane v : ℚ) - v * 32767| < 1 := by
  unfold encode_2d_lane
  rw [abs_le] at h
  rw [qclamp_eq_self (by linarith) (by linarith)]
  exact truncQ_sub_lt _

theorem encode_2d_lane_nonneg {v : ℚ} (h : 0 ≤ v) : 0 ≤ encode_2d_lane v := by
  unfold encode_2d_lane qclamp
  apply truncQ_nonneg
  exact le_min (le_trans (by positivity) (le_max_left _ _)) (by norm_num)

theorem encode_2d_lane_nonpos {v : ℚ} (h : v ≤ 0) : encode_2d_lane v ≤ 0 := by
  unfold encode_2d_lane qclamp
  apply truncQ_nonpos
  have hx : v * 32767 ≤ 0 := by nlinarith
  calc min (max (v * 32767) (-32767)) 32767 ≤ max (v * 32767) (-32767) := min_le_left _ _
    _ ≤ 0 := max_le hx (by norm_num)

/-- All the per-lane round-trip facts for the 2D codec. -/
theorem encode_2d_lane_roundtrip (v : ℚ) (h : |v| ≤ 1) :
    |(encode_2d_lane v : ℚ) / 65534 - v / 2| < 1 / 65534 ∧
    0 ≤ (encode_2d_lane v : ℚ) / 65534 * v ∧
    (1 / 32767 ≤ v → 0 < (encode_2d_lane v : ℚ) / 65534) ∧
    (v ≤ -(1 / 32767) → (encode_2d_lane v : ℚ) / 65534 < 0) := by
  have habs := abs_le.mp h
  refine ⟨?_, ?_, ?_, ?_⟩
  · have hc := encode_2d_lane_close h
    rw [show (encode_2d_lane v : ℚ) / 65534 - v / 2
          = ((encode_2d_lane v : ℚ) - v * 32767) / 65534 by ring]
    rw [abs_div, abs_of_pos (by norm_num : (0:ℚ) < 65534)]
    rw [div_lt_div_iff₀ (by norm_num) (by norm_num)]
    nlinarith [hc]
  · rcases le_or_lt 0 v with hv | hv
    · have he : (0:ℚ) ≤ (encode_2d_lane v : ℚ) := by
        exact_mod_cast encode_2d_lane_nonneg hv
      exact mul_nonneg (div_nonneg he (by norm_num)) hv
    · have he : (encode_2d_lane v : ℚ) ≤ 0 := by
        exact_mod_cast encode_2d_lane_nonpos (le_of_lt hv)
      have h1 : (encode_2d_lane v : ℚ) / 65534 ≤ 0 :=
        div_nonpos_of_nonpos_of_nonneg he (by norm_num)
      nlinarith [h1]
  · intro hv
    have hx1 : (1:ℚ) ≤ v * 32767 := by nlinarith
    have hx2 : v * 32767 ≤ 32767 := by nlinarith
    have he : 0 < encode_2d_lane v := by
      unfold encode_2d_lane
      rw [qclamp_eq_self (by linarith) hx2]
      exact truncQ_pos hx1
    have hlt : (0:ℚ) < (encode_2d_lane v : ℚ) := by exact_mod_cast he
    exact div_pos hlt (by norm_num)
  · intro hv
    have hx1 : v * 32767 ≤ -1 := by nlinarith
    have hx2 : (-32767:ℚ) ≤ v * 32767 := by nlinarith
    have he : encode_2d_lane v < 0 := by
      unfold encode_2d_lane
      rw [qclamp_eq_self hx2 (by linarith)]
      exact truncQ_neg hx1
    have hlt : (encode_2d_lane v : ℚ) < 0 := by exact_mod_cast he
    exact div_neg_of_neg_of_pos hlt (by norm_num)

/-- C2 (amended): for every 2D motion vector `v` with both lanes in the
representable range `[-1, 1]`, `decode_2d_motion (encode_2d_motion v)`
differs from `v / 2` (not from `v`: the decode multiplies the unpacked
snorm value by `0.5f`) by less than one quantization step of the decoded
scale (`1/65534`) per lane; no lane's sign is ever flipped, and any lane
of magnitude at least one encoder step (`1/32767`) keeps its strict sign. -/
theorem decode_encode_2d_motion_halves_within_step (v : ℚ × ℚ)
    (h1 : |v.1| ≤ 1) (h2 : |v.2| ≤ 1) :
    (|(decode_2d_motion (encode_2d_motion v)).1 - v.1 / 2| < 1 / 65534 ∧
     |(decode_2d_motion (encode_2d_motion v)).2 - v.2 / 2| < 1 / 65534) ∧
    (0 ≤ (decode_2d_motion (encode_2d_motion v)).1 * v.1 ∧
     0 ≤ (decode_2d_motion (encode_2d_motion v)).2 * v.2) ∧
    ((1 / 32767 ≤ v.1 → 0 < (decode_2d_motion (encode_2d_motion v)).1) ∧
     (v.1 ≤ -(1 / 32767) → (decode_2d_motion (encode_2d_motion v)).1 < 0) ∧
     (1 / 32767 ≤ v.2 → 0 < (decode_2d_motion (encode_2d_motion v)).2) ∧
     (v.2 ≤ -(1 / 32767) → (decode_2d_motion (encode_2d_motion v)).2 < 0)) := by
  rw [decode_encode_2d_eq]
  obtain ⟨a1, b1, c1, d1⟩ := encode_2d_lane_roundtrip v.1 h1
  obtain ⟨a2, b2, c2, d2⟩ := encode_2d_lane_roundtrip v.2 h2
  exact ⟨⟨a1, a2⟩, ⟨b1, b2⟩, c1, d1, c2, d2⟩

/-- Witness for C2's amended theorem at the concrete lanes `(2/5, -1/2)`. -/
theorem decode_encode_2d_motion_halves_witness :
    (|(decode_2d_motion (encode_2d_motion (2/5, -1/2))).1 - (2/5) / 2| < 1 / 65534 ∧
     |(decode_2d_motion (encode_2d_motion (2/5, -1/2))).2 - (-1/2) / 2| < 1 / 65534) ∧
    (0 ≤ (decode_2d_motion (encode_2d_motion (2/5, -1/2))).1 * (2/5) ∧
     0 ≤ (decode_2d_motion (encode_2d_motion (2/5, -1/2))).2 * (-1/2)) ∧
    ((1 / 32767 ≤ (2/5 : ℚ) → 0 < (decode_2d_motion (encode_2d_motion (2/5, -1/2))).1) ∧
     ((2/5 : ℚ) ≤ -(1 / 32767) → (decode_2d_motion (encode_2d_motion (2/5, -1/2))).1 < 0) ∧
     (1 / 32767 ≤ (-1/2 : ℚ) → 0 < (decode_2d_motion (encode_2d_motion (2/5, -1/2))).2) ∧
     ((-1/2 : ℚ) ≤ -(1 / 32767) → (decode_2d_motion (encode_2d_motion (2/5, -1/2))).2 < 0)) :=
  decode_encode_2d_motion_halves_within_step (2/5, -1/2)
    (by rw [abs_le]; constructor <;> norm_num)
    (by rw [abs_le]; constructor <;> norm_num)

/-- C2 counterexample: at `v = (2/5, 0)` the decoded round trip is about
`v/2`, which differs from `v` by roughly `0.2`, far more than one
fixed-point quantization step (`1/32767`): the claim that
`decode_2d_motion (encode_2d_motion v)` stays within one step of `v`
itself is false on the code. -/
theorem decode_encode_2d_motion_not_within_step :
    ¬ (|(decode_2d_motion (encode_2d_motion (2/5, 0))).1 - 2/5| < 1 / 32767 ∧
       |(decode_2d_motion (encode_2d_motion (2/5, 0))).2 - 0| < 1 / 32767) := by
  intro hcl
  have henc : encode_2d_motion (2/5, 0) = 13106 := by
    have hl1 : encode_2d_lane (2/5) = 13106 := by
      rw [encode_2d_lane, show ((2:ℚ)/5 * 32767) = 65534/5 by norm_num,
          qclamp_eq_self (by norm_num) (by norm_num)]
      have hn : (65534/5 : ℚ).num = 65534 := by norm_num
      have hd : (65534/5 : ℚ).den = 5 := by norm_num
      rw [truncQ, hn, hd]
      decide
    have hl0 : encode_2d_lane 0 = 0 := by
      rw [encode_2d_lane, show ((0:ℚ) * 32767) = 0 by norm_num,
          qclamp_eq_self (by norm_num) (by norm_num)]
      rw [truncQ]
      norm_num
    rw [encode_2d_motion]
    simp only [hl1, hl0]
    rfl
  rw [henc] at hcl
  have hval : (decode_2d_motion 13106).1 = 6553/32767 := by
    rw [decode_2d_motion, unpack_snorm_2x16]
    norm_num [from_snorm16, qclamp]
  rw [hval] at hcl
  have hc1 := hcl.1
  rw [show (6553/32767 : ℚ) - 2/5 = -(32769/163835) by norm_num, abs_neg,
      abs_of_pos (by norm_num)] at hc1
  norm_num at hc1

/-! ## Scatter depth pass

`libwarp_warp_scatter_depth` (warp_kernels.hpp lines 236-251): every source
pixel computes its scattered destination and linear depth (the `scatter`
helper, whose camera math runs per pixel and is data to this pass), and, if
the destination is in bounds, performs
`atomic_min(&depth_buffer[y * W + x], depth)`.
The pass is modelled as a fold of per-pixel atomic-min writes over an
arbitrary order of the parallel invocations; each write carries the
scattered destination coordinate and the value written. The element type is
any linear order: the claims instantiate it with `ℚ` (linear depths, the
floating-point view) and with `ℕ` (the uint32 bit patterns the Vulkan
path actually feeds to `atomic_min`). -/

/-- One `atomic_min` write of the scatter depth kernel: bounds check, then
lower the cell at `y * W + x` to the minimum with the written value. -/
def scatter_depth_write {α : Type} [LinearOrder α] (W H : ℕ) (buf : ℕ → α)
    (s : (ℕ × ℕ) × α) : ℕ → α :=
  if s.1.1 < W ∧ s.1.2 < H then
    Function.update buf (s.1.2 * W + s.1.1) (min (buf (s.1.2 * W + s.1.1)) s.2)
  else buf

/-- The whole scatter depth pass: all per-pixel writes in some order. -/
def libwarp_warp_scatter_depth {α : Type} [LinearOrder α] (W H : ℕ)
    (writes : List ((ℕ × ℕ) × α)) (buf : ℕ → α) : ℕ → α :=
  writes.foldl (scatter_depth_write W H) buf

/-- The values scattered in-bounds onto destination pixel `p`. -/
def writes_to_cell {α : Type} (W H : ℕ) (writes : List ((ℕ × ℕ) × α))
    (p : ℕ × ℕ) : List α :=
  (writes.filter (fun s => decide (s.1.1 < W ∧ s.1.2 < H ∧ s.1 = p))).map Prod.snd

theorem cell_idx_inj {W x1 y1 x2 y2 : ℕ} (h1 : x1 < W) (h2 : x2 < W)
    (h : y1 * W + x1 = y2 * W + x2) : x1 = x2 ∧ y1 = y2 := by
  have hx : x1 = x2 := by
    have e1 : (W * y1 + x1) % W = x1 % W := Nat.mul_add_mod W y1 x1
    have e2 : (W * y2 + x2) % W = x2 % W := Nat.mul_add_mod W y2 x2
    rw [Nat.mul_comm W y1] at e1
    rw [Nat.mul_comm W y2] at e2
    rw [Nat.mod_eq_of_lt h1] at e1
    rw [Nat.mod_eq_of_lt h2] at e2
    rw [h, e2] at e1
    exact e1.symm
  subst hx
  refine ⟨rfl, ?_⟩
  have hW : 0 < W := Nat.pos_of_ne_zero (by omega)
  have hy : y1 * W = y2 * W := by omega
  exact Nat.eq_of_mul_eq_mul_right hW hy

/-- What one write does to an in-bounds destination cell. -/
theorem scatter_depth_write_at {α : Type} [LinearOrder α] (W H : ℕ)
    (buf : ℕ → α) (s : (ℕ × ℕ) × α) (p : ℕ × ℕ)
    (hp1 : p.1 < W) (_hp2 : p.2 < H) :
    scatter_depth_write W H buf s (p.2 * W + p.1)
      = if s.1.1 < W ∧ s.1.2 < H ∧ s.1 = p
        then min (buf (p.2 * W + p.1)) s.2
        else buf (p.2 * W + p.1) := by
  unfold scatter_depth_write
  by_cases hs : s.1.1 < W ∧ s.1.2 < H
  · rw [if_pos hs]
    by_cases hsp : s.1 = p
    · rw [if_pos ⟨hs.1, hs.2, hsp⟩, hsp, Function.update_same]
    · rw [if_neg (fun hcon => hsp hcon.2.2)]
      apply Function.update_noteq
      intro hcon
      apply hsp
      obtain ⟨hx, hy⟩ := cell_idx_inj hp1 hs.1 hcon
      exact Prod.ext hx.symm hy.symm
  · rw [if_neg hs, if_neg (fun hcon => hs ⟨hcon.1, hcon.2.1⟩)]

/-- The scatter depth pass acts on each in-bounds cell as a fold of `min`
over the values scattered onto it. -/
theorem scatter_depth_cell {α : Type} [LinearOrder α] (W H : ℕ)
    (writes : List ((ℕ × ℕ) × α)) (buf : ℕ → α) (p : ℕ × ℕ)
    (hp1 : p.1 < W) (hp2 : p.2 < H) :
    libwarp_warp_scatter_depth W H writes buf (p.2 * W + p.1)
      = (writes_to_cell W H writes p).foldl min (buf (p.2 * W + p.1)) := by
  induction writes generalizing buf with
  | nil => rfl
  | cons s rest ih =>
    unfold libwarp_warp_scatter_depth writes_to_cell
    rw [List.foldl_cons, List.filter_cons]
    have hstep := scatter_depth_write_at W H buf s p hp1 hp2
    by_cases hc : s.1.1 < W ∧ s.1.2 < H ∧ s.1 = p
    · rw [if_pos (by simpa using hc)]
      rw [List.map_cons, List.foldl_cons]
      have := ih (scatter_depth_write W H buf s)
      unfold libwarp_warp_scatter_depth writes_to_cell at this
      rw [this, hstep, if_pos hc]
    · rw [if_neg (by simpa using hc)]
      have := ih (scatter_depth_write W H buf s)
      unfold libwarp_warp_scatter_depth writes_to_cell at this
      rw [this, hstep, if_neg hc]

/-- Two atomic-min writes commute: the pass result is order-independent. -/
theorem scatter_depth_write_comm {α : Type} [LinearOrder α] (W H : ℕ)
    (buf : ℕ → α) (s t : (ℕ × ℕ) × α) :
    scatter_depth_write W H (scatter_depth_write W H buf s) t
      = scatter_depth_write W H (scatter_depth_write W H buf t) s := by
  unfold scatter_depth_write
  by_cases hs : s.1.1 < W ∧ s.1.2 < H <;> by_cases ht : t.1.1 < W ∧ t.1.2 < H
  · simp only [if_pos hs, if_pos ht]
    by_cases hij : t.1.2 * W + t.1.1 = s.1.2 * W + s.1.1
    · rw [hij, Function.update_same, Function.update_same,
          Function.update_idem, Function.update_idem, min_right_comm]
    · rw [Function.update_noteq hij, Function.update_noteq (Ne.symm hij),
          Function.update_comm (Ne.symm hij)]
  · simp only [if_pos hs, if_neg ht]
  · simp only [if_neg hs, if_pos ht]
  · simp only [if_neg hs, if_neg ht]

/-- The pass result does not depend on the order of the parallel writes. -/
theorem scatter_depth_perm {α : Type} [LinearOrder α] (W H : ℕ)
    {w1 w2 : List ((ℕ × ℕ) × α)} (hp : w1.Perm w2) (buf : ℕ → α) :
    libwarp_warp_scatter_depth W H w1 buf
      = libwarp_warp_scatter_depth W H w2 buf := by
  induction hp generalizing buf with
  | nil => rfl
  | cons x _ ih =>
    unfold libwarp_warp_scatter_depth
    rw [List.foldl_cons, List.foldl_cons]
    exact ih _
  | swap x y l =>
    unfold libwarp_warp_scatter_depth
    rw [List.foldl_cons, List.foldl_cons, List.foldl_cons, List.foldl_cons,
        scatter_depth_write_comm]
  | trans _ _ ih1 ih2 =>
    rw [ih1 buf, ih2 buf]

theorem foldl_min_le {α : Type} [LinearOrder α] (l : List α) (init : α) :
    l.foldl min init ≤ init ∧ ∀ d ∈ l, l.foldl min init ≤ d := by
  induction l generalizing init with
  | nil => exact ⟨le_refl _, by simp⟩
  | cons a l ih =>
    rw [List.foldl_cons]
    obtain ⟨h1, h2⟩ := ih (min init a)
    refine ⟨le_trans h1 (min_le_left _ _), ?_⟩
    intro d hd
    rcases List.mem_cons.mp hd with rfl | hd
    · exact le_trans h1 (min_le_right _ _)
    · exact h2 d hd

theorem foldl_min_mem {α : Type} [LinearOrder α] (l : List α) (init : α) :
    l.foldl min init = init ∨ l.foldl min init ∈ l := by
  induction l generalizing init with
  | nil => exact Or.inl rfl
  | cons a l ih =>
    rw [List.foldl_cons]
    rcases ih (min init a) with h | h
    · rcases le_total init a with hle | hle
      · exact Or.inl (by rw [h, min_eq_left hle])
      · exact Or.inr (by rw [h, min_eq_right hle]; exact List.mem_cons_self a l)
    · exact Or.inr (List.mem_cons_of_mem a h)

/-- C1: after the scatter depth pass, every destination pixel that received
at least one in-bounds scattered write holds exactly the minimum depth
among the values scattered onto it (it is one of those values, and is a
lower bound of them), provided each scattered value is at most the
buffer's cleared initial value at that cell (true of the `FLT_MAX` clear);
moreover the resulting buffer is the same under any reordering of the
parallel writes. -/
theorem scatter_depth_pass_min_invariant (W H : ℕ)
    (writes : List ((ℕ × ℕ) × ℚ)) (buf : ℕ → ℚ) (p : ℕ × ℕ)
    (hp1 : p.1 < W) (hp2 : p.2 < H)
    (hne : writes_to_cell W H writes p ≠ [])
    (hinit : ∀ d ∈ writes_to_cell W H writes p, d ≤ buf (p.2 * W + p.1)) :
    (libwarp_warp_scatter_depth W H writes buf (p.2 * W + p.1)
        ∈ writes_to_cell W H writes p ∧
     ∀ d ∈ writes_to_cell W H writes p,
        libwarp_warp_scatter_depth W H writes buf (p.2 * W + p.1) ≤ d) ∧
    ∀ w2 : List ((ℕ × ℕ) × ℚ), writes.Perm w2 →
      libwarp_warp_scatter_depth W H w2 buf (p.2 * W + p.1)
        = libwarp_warp_scatter_depth W H writes buf (p.2 * W + p.1) := by
  have hcell := scatter_depth_cell W H writes buf p hp1 hp2
  obtain ⟨hle_init, hle_all⟩ :=
    foldl_min_le (writes_to_cell W H writes p) (buf (p.2 * W + p.1))
  refine ⟨⟨?_, ?_⟩, ?_⟩
  · rcases foldl_min_mem (writes_to_cell W H writes p) (buf (p.2 * W + p.1)) with h | h
    · rcases List.exists_mem_of_ne_nil _ hne with ⟨d0, hd0⟩
      have h1 : libwarp_warp_scatter_depth W H writes buf (p.2 * W + p.1) ≤ d0 := by
        rw [hcell]; exact hle_all d0 hd0
      have h2 : d0 ≤ libwarp_warp_scatter_depth W H writes buf (p.2 * W + p.1) := by
        rw [hcell, h]; exact hinit d0 hd0
      rw [le_antisymm h1 h2]
      exact hd0
    · rw [hcell]; exact h
  · intro d hd
    rw [hcell]
    exact hle_all d hd
  · intro w2 hw2
    rw [scatter_depth_perm W H hw2 buf]

/-- Witness for C1 at the spec's own example: two source pixels scatter to
destination `(1, 1)` of a 4-by-4 screen with depths 5 and 1; the buffer
(cleared to 100 here) ends at the minimum, 1, whatever the write order. -/
theorem scatter_depth_pass_min_invariant_witness :
    (libwarp_warp_scatter_depth 4 4 [((1, 1), (5 : ℚ)), ((1, 1), 1)]
        (fun _ => 100) (1 * 4 + 1)
        ∈ writes_to_cell 4 4 [((1, 1), (5 : ℚ)), ((1, 1), 1)] (1, 1) ∧
     ∀ d ∈ writes_to_cell 4 4 [((1, 1), (5 : ℚ)), ((1, 1), 1)] (1, 1),
        libwarp_warp_scatter_depth 4 4 [((1, 1), (5 : ℚ)), ((1, 1), 1)]
          (fun _ => 100) (1 * 4 + 1) ≤ d) ∧
    ∀ w2 : List ((ℕ × ℕ) × ℚ), [((1, 1), (5 : ℚ)), ((1, 1), 1)].Perm w2 →
      libwarp_warp_scatter_depth 4 4 w2 (fun _ => 100) (1 * 4 + 1)
        = libwarp_warp_scatter_depth 4 4 [((1, 1), (5 : ℚ)), ((1, 1), 1)]
            (fun _ => 100) (1 * 4 + 1) :=
  scatter_depth_pass_min_invariant 4 4 [((1, 1), (5 : ℚ)), ((1, 1), 1)]
    (fun _ => 100) (1, 1) (by norm_num) (by norm_num)
    (by simp [writes_to_cell])
    (by norm_num [writes_to_cell])

/-! ## Bit-level view of the depth buffer

The scatter depth kernel's buffer is `uint32_t`: the comment at
warp_kernels.hpp lines 238-240 records that the float depth is
bit-reinterpreted because Vulkan has no floating-point atomics, and that
this "doesn't change the outcome of atomic_min (for values >= 0)". The
IEEE-754 encoding of the non-negative finite singles (bit patterns
`0x00000000 .. 0x7F7FFFFF`) is modelled by its exact value map. -/

/-- Scaled significand of a non-negative IEEE-754 single bit pattern
`n = e * 2^23 + m`: subnormals (`e = 0`) stand for `m`, normals for
`(2^23 + m) * 2^(e-1)`; the value represented is this over `2^149`. -/
def float_bits_mant (n : ℕ) : ℕ :=
  if n < 2 ^ 23 then n else (2 ^ 23 + n % 2 ^ 23) * 2 ^ (n / 2 ^ 23 - 1)

/-- The real value of the non-negative single-precision bit pattern `n`. -/
def float_bits_val (n : ℕ) : ℚ := (float_bits_mant n : ℚ) / 2 ^ 149

theorem float_bits_mant_strictMono : StrictMono float_bits_mant := by
  apply strictMono_nat_of_lt_succ
  intro n
  unfold float_bits_mant
  by_cases h1 : n + 1 < 2 ^ 23
  · rw [if_pos (by omega), if_pos h1]
    omega
  · rw [if_neg h1]
    by_cases h0 : n < 2 ^ 23
    · have hn : n = 2 ^ 23 - 1 := by omega
      rw [if_pos h0]
      subst hn
      norm_num
    · rw [if_neg h0]
      have he1 : 1 ≤ n / 2 ^ 23 := by omega
      have hp : 0 < 2 ^ (n / 2 ^ 23 - 1) := pow_pos (by norm_num) _
      by_cases hm1 : n % 2 ^ 23 < 2 ^ 23 - 1
      · have h2 : (n + 1) / 2 ^ 23 = n / 2 ^ 23 := by omega
        have h3 : (n + 1) % 2 ^ 23 = n % 2 ^ 23 + 1 := by omega
        rw [h2, h3]
        exact (Nat.mul_lt_mul_right hp).mpr (by omega)
      · have hm2 : n % 2 ^ 23 = 2 ^ 23 - 1 := by omega
        have h2 : (n + 1) / 2 ^ 23 = n / 2 ^ 23 + 1 := by omega
        have h3 : (n + 1) % 2 ^ 23 = 0 := by omega
        rw [h2, h3, hm2, Nat.add_sub_cancel]
        have hsplit : (2:ℕ) ^ (n / 2 ^ 23) = 2 ^ (n / 2 ^ 23 - 1) * 2 := by
          rw [← pow_succ]
          congr 1
          omega
        rw [hsplit,
            show ((2:ℕ) ^ 23 + 0) * (2 ^ (n / 2 ^ 23 - 1) * 2)
              = (2 ^ 23 * 2) * 2 ^ (n / 2 ^ 23 - 1) by ring]
        exact (Nat.mul_lt_mul_right hp).mpr (by norm_num)

theorem float_bits_val_le {a b : ℕ} (h : a ≤ b) :
    float_bits_val a ≤ float_bits_val b := by
  unfold float_bits_val
  have hm : float_bits_mant a ≤ float_bits_mant b :=
    float_bits_mant_strictMono.monotone h
  have hc : (float_bits_mant a : ℚ) ≤ (float_bits_mant b : ℚ) := by exact_mod_cast hm
  exact div_le_div_of_nonneg_right hc (by norm_num) |>.trans_eq rfl

theorem float_bits_val_min_comm (a b : ℕ) :
    float_bits_val (min a b) = min (float_bits_val a) (float_bits_val b) := by
  rcases le_total a b with h | h
  · rw [min_eq_left h, min_eq_left (float_bits_val_le h)]
  · rw [min_eq_right h, min_eq_right (float_bits_val_le h)]

/-- Mapping every bit pattern to its float value commutes with one write. -/
theorem scatter_depth_write_map (W H : ℕ) (buf : ℕ → ℕ)
    (s : (ℕ × ℕ) × ℕ) (j : ℕ) :
    float_bits_val (scatter_depth_write W H buf s j)
      = scatter_depth_write W H (fun k => float_bits_val (buf k))
          (s.1, float_bits_val s.2) j := by
  unfold scatter_depth_write
  by_cases hs : s.1.1 < W ∧ s.1.2 < H
  · simp only [if_pos hs]
    by_cases hj : j = s.1.2 * W + s.1.1
    · rw [hj, Function.update_same, Function.update_same, float_bits_val_min_comm]
    · rw [Function.update_noteq hj, Function.update_noteq hj]
  · simp only [if_neg hs]

/-- Mapping bit patterns to their float values commutes with the pass. -/
theorem scatter_depth_pass_map (W H : ℕ) (writes : List ((ℕ × ℕ) × ℕ))
    (buf : ℕ → ℕ) (i : ℕ) :
    float_bits_val (libwarp_warp_scatter_depth W H writes buf i)
      = libwarp_warp_scatter_depth W H
          (writes.map (fun s => (s.1, float_bits_val s.2)))
          (fun k => float_bits_val (buf k)) i := by
  induction writes generalizing buf with
  | nil => rfl
  | cons s rest ih =>
    unfold libwarp_warp_scatter_depth
    rw [List.map_cons, List.foldl_cons, List.foldl_cons]
    have hbuf : (fun k => float_bits_val (scatter_depth_write W H buf s k))
        = scatter_depth_write W H (fun k => float_bits_val (buf k))
            (s.1, float_bits_val s.2) := by
      funext k
      exact scatter_depth_write_map W H buf s k
    unfold libwarp_warp_scatter_depth at ih
    rw [ih (scatter_depth_write W H buf s), hbuf]

/-- C9: on non-negative finite single-precision bit patterns
(`0 .. 0x7F7FFFFF`) the unsigned-integer minimum of two bit patterns
carries exactly the floating-point minimum of the values they represent,
and consequently the depth pass run with `atomic_min` on the
uint32-reinterpreted buffer computes, cell for cell, the value of the same
pass run with a floating-point atomic minimum. -/
theorem atomic_min_bits_eq_fp_min (a b : ℕ)
    (ha : a ≤ 0x7F7FFFFF) (hb : b ≤ 0x7F7FFFFF) :
    float_bits_val (min a b) = min (float_bits_val a) (float_bits_val b) ∧
    ∀ (W H : ℕ) (writes : List ((ℕ × ℕ) × ℕ)) (buf : ℕ → ℕ) (i : ℕ),
      float_bits_val (libwarp_warp_scatter_depth W H writes buf i)
        = libwarp_warp_scatter_depth W H
            (writes.map (fun s => (s.1, float_bits_val s.2)))
            (fun k => float_bits_val (buf k)) i :=
  ⟨float_bits_val_min_comm a b,
   fun W H writes buf i => scatter_depth_pass_map W H writes buf i⟩

/-- Witness for C9 at the bit patterns of `1.0f` (`0x3F800000`) and
`2.0f` (`0x40000000`). -/
theorem atomic_min_bits_eq_fp_min_witness :
    float_bits_val (min 0x3F800000 0x40000000)
        = min (float_bits_val 0x3F800000) (float_bits_val 0x40000000) ∧
    ∀ (W H : ℕ) (writes : List ((ℕ × ℕ) × ℕ)) (buf : ℕ → ℕ) (i : ℕ),
      float_bits_val (libwarp_warp_scatter_depth W H writes buf i)
        = libwarp_warp_scatter_depth W H
            (writes.map (fun s => (s.1, float_bits_val s.2)))
            (fun k => float_bits_val (buf k)) i :=
  atomic_min_bits_eq_fp_min 0x3F800000 0x40000000 (by norm_num) (by norm_num)

/-! ## Scatter color pass

`libwarp_warp_scatter_color` (warp_kernels.hpp lines 253-276): recompute
the scattered destination and linear depth for the pixel, return without
writing when the destination is out of bounds, return without writing when
the pixel's linear depth is greater than the scratch buffer value at the
destination, otherwise write the source color with alpha forced to 1 to
the destination. The scattered result (destination coordinate and linear
depth, as computed by the `scatter` helper) and the source color read are
data to the embedded kernel; the result is `some (destination, texel)`
for a write and `none` when the kernel returns without writing. -/

/-- A 4-channel color texel (`float4`); `a` is the validity channel. -/
structure Color4 where
  r : ℚ
  g : ℚ
  b : ℚ
  a : ℚ
deriving DecidableEq

/-- The per-pixel scatter color kernel after the `scatter` computation. -/
def libwarp_warp_scatter_color (W H : ℕ) (scattered : (ℕ × ℕ) × ℚ)
    (src_color : Color4) (depth_buffer : ℕ → ℚ) : Option ((ℕ × ℕ) × Color4) :=
  if W ≤ scattered.1.1 ∨ H ≤ scattered.1.2 then none
  else if depth_buffer (scattered.1.2 * W + scattered.1.1) < scattered.2 then none
  else some (scattered.1, { src_color with a := 1 })

/-- C6: the scatter color pass writes a source pixel's color (alpha forced
to 1, the "written" validity mark) to its scattered destination exactly
when the destination is in bounds and the pixel's linear depth is at most
the scratch depth buffer value there; in every other case the kernel
returns without touching the destination texel. -/
theorem scatter_color_write_iff (W H : ℕ) (scattered : (ℕ × ℕ) × ℚ)
    (src_color : Color4) (depth_buffer : ℕ → ℚ) :
    (libwarp_warp_scatter_color W H scattered src_color depth_buffer
        = some (scattered.1, { src_color with a := 1 })
      ↔ (scattered.1.1 < W ∧ scattered.1.2 < H ∧
         scattered.2 ≤ depth_buffer (scattered.1.2 * W + scattered.1.1))) ∧
    (libwarp_warp_scatter_color W H scattered src_color depth_buffer = none
      ↔ ¬ (scattered.1.1 < W ∧ scattered.1.2 < H ∧
           scattered.2 ≤ depth_buffer (scattered.1.2 * W + scattered.1.1))) := by
  unfold libwarp_warp_scatter_color
  by_cases h1 : W ≤ scattered.1.1 ∨ H ≤ scattered.1.2
  · rw [if_pos h1]
    constructor
    · constructor
      · intro hcon
        exact absurd hcon (by simp)
      · intro hcon
        omega
    · constructor
      · intro _
        omega
      · intro _
        rfl
  · rw [if_neg h1]
    push_neg at h1
    by_cases h2 : depth_buffer (scattered.1.2 * W + scattered.1.1) < scattered.2
    · rw [if_pos h2]
      constructor
      · constructor
        · intro hcon
          exact absurd hcon (by simp)
        · intro hcon
          exact absurd hcon.2.2 (not_le.mpr h2)
      · constructor
        · intro _
          intro hcon
          exact absurd hcon.2.2 (not_le.mpr h2)
        · intro _
          rfl
    · rw [if_neg h2]
      constructor
      · constructor
        · intro _
          exact ⟨h1.1, h1.2, le_of_not_lt h2⟩
        · intro _
          rfl
      · constructor
        · intro hcon
          exact absurd hcon (by simp)
        · intro hcon
          exact absurd ⟨h1.1, h1.2, le_of_not_lt h2⟩ hcon

/-! ## IEEE-754-style values for the single-pixel fixup

`libwarp_single_px_fixup` (warp_kernels.hpp lines 477-509) divides by the
sum of the four neighbors' validity channels with no guard; whether NaN
reaches the output is the point of the claim, so the arithmetic is
modelled with explicit finite / signed-infinite / NaN values following the
IEEE-754 rules for the operations the kernel performs. -/

/-- A float value: finite (exact rational), signed infinity, or NaN. -/
inductive FV where
  | fin (q : ℚ)
  | inf (neg : Bool)
  | nan
deriving DecidableEq

/-- IEEE addition on `FV` (opposite infinities give NaN). -/
def FV.add : FV → FV → FV
  | FV.nan, _ => FV.nan
  | _, FV.nan => FV.nan
  | FV.fin a, FV.fin b => FV.fin (a + b)
  | FV.fin _, FV.inf s => FV.inf s
  | FV.inf s, FV.fin _ => FV.inf s
  | FV.inf s, FV.inf t => if s = t then FV.inf s else FV.nan

/-- IEEE multiplication on `FV` (zero times infinity gives NaN). -/
def FV.mul : FV → FV → FV
  | FV.nan, _ => FV.nan
  | _, FV.nan => FV.nan
  | FV.fin a, FV.fin b => FV.fin (a * b)
  | FV.fin a, FV.inf s => if a = 0 then FV.nan else FV.inf (xor (decide (a < 0)) s)
  | FV.inf s, FV.fin a => if a = 0 then FV.nan else FV.inf (xor s (decide (a < 0)))
  | FV.inf s, FV.inf t => FV.inf (xor s t)

/-- IEEE division on `FV`: a nonzero finite value over (positive) zero is
infinity — the kernel's unguarded `1.0f / sum`. -/
def FV.div : FV → FV → FV
  | FV.nan, _ => FV.nan
  | _, FV.nan => FV.nan
  | FV.fin a, FV.fin b =>
      if b = 0 then (if a = 0 then FV.nan else FV.inf (decide (a < 0)))
      else FV.fin (a / b)
  | FV.fin _, FV.inf _ => FV.fin 0
  | FV.inf s, FV.fin b => FV.inf (xor s (decide (b < 0)))
  | FV.inf _, FV.inf _ => FV.nan

/-- IEEE `>=` comparison (false whenever NaN is involved). -/
def FV.fge : FV → FV → Bool
  | FV.nan, _ => false
  | _, FV.nan => false
  | FV.fin a, FV.fin b => decide (b ≤ a)
  | FV.fin _, FV.inf s => s
  | FV.inf s, FV.fin _ => !s
  | FV.inf s, FV.inf t => !s || t

/-- A 4-channel texel of float values; `a` is the validity channel. -/
structure FColor where
  r : FV
  g : FV
  b : FV
  a : FV
deriving DecidableEq

/-- Mirrored-repeat addressing of one axis.
Modelled from the spec: the floor library's `read_repeat_mirrored` is not
part of this repository; the spec asks for "mirrored/wrapped addressing at
texture edges", the standard mirrored-repeat rule on each axis. -/
def mirror_coord (size : ℕ) (c : ℤ) : ℕ :=
  let m := (c % (2 * (size : ℤ))).toNat
  if m < size then m else 2 * size - 1 - m

/-- Read with offset and mirrored-repeat addressing (floor's
`read_repeat_mirrored(coord, offset)`). -/
def read_repeat_mirrored (W H : ℕ) (img : ℕ × ℕ → FColor)
    (coord : ℕ × ℕ) (off : ℤ × ℤ) : FColor :=
  img (mirror_coord W ((coord.1 : ℤ) + off.1), mirror_coord H ((coord.2 : ℤ) + off.2))

/-- `libwarp_single_px_fixup` (warp_kernels.hpp lines 477-509): if the
pixel's validity channel is at least 1 it is left unchanged; otherwise the
four axis-neighbors are read with mirrored addressing, the color channels
are summed weighted by each neighbor's validity channel, the weight sum is
accumulated, and the averaged color is written back scaled by the
unguarded `1.0f / sum`, with the validity channel forced to 1. The result
is the final value of the pixel at `coord`. -/
def libwarp_single_px_fixup (W H : ℕ) (img : ℕ × ℕ → FColor)
    (coord : ℕ × ℕ) : FColor :=
  let color := img coord
  if FV.fge color.a (FV.fin 1) then color
  else
    let c0 := read_repeat_mirrored W H img coord (0, -1)
    let c1 := read_repeat_mirrored W H img coord (1, 0)
    let c2 := read_repeat_mirrored W H img coord (0, 1)
    let c3 := read_repeat_mirrored W H img coord (-1, 0)
    let avg_r := FV.add (FV.add (FV.add (FV.add (FV.fin 0)
      (FV.mul c0.r c0.a)) (FV.mul c1.r c1.a)) (FV.mul c2.r c2.a)) (FV.mul c3.r c3.a)
    let avg_g := FV.add (FV.add (FV.add (FV.add (FV.fin 0)
      (FV.mul c0.g c0.a)) (FV.mul c1.g c1.a)) (FV.mul c2.g c2.a)) (FV.mul c3.g c3.a)
    let avg_b := FV.add (FV.add (FV.add (FV.add (FV.fin 0)
      (FV.mul c0.b c0.a)) (FV.mul c1.b c1.a)) (FV.mul c2.b c2.a)) (FV.mul c3.b c3.a)
    let sum := FV.add (FV.add (FV.add (FV.add (FV.fin 0) c0.a) c1.a) c2.a) c3.a
    let t := FV.div (FV.fin 1) sum
    { r := FV.mul avg_r t, g := FV.mul avg_g t, b := FV.mul avg_b t, a := FV.fin 1 }

/-- C4 (amended): the fixup pass of a pixel whose validity channel is
below 1 divides by the neighbor-validity sum with no guard. With at least
one written neighbor (nonzero validity sum) the output is the finite
validity-weighted average of the neighbor colors with validity forced
to 1; with all four neighbors unwritten (validity 0) the kernel computes
`0 * (1/0) = 0 * inf`, and the output color channels are NaN (the
validity channel is still forced to 1). -/
theorem single_px_fixup_behavior (W H : ℕ) (img : ℕ × ℕ → FColor) (coord : ℕ × ℕ)
    (rc gc bc wc r0 g0 b0 w0 r1 g1 b1 w1 r2 g2 b2 w2 r3 g3 b3 w3 : ℚ)
    (hc : img coord = ⟨FV.fin rc, FV.fin gc, FV.fin bc, FV.fin wc⟩)
    (hwc : wc < 1)
    (h0 : read_repeat_mirrored W H img coord (0, -1)
            = ⟨FV.fin r0, FV.fin g0, FV.fin b0, FV.fin w0⟩)
    (h1 : read_repeat_mirrored W H img coord (1, 0)
            = ⟨FV.fin r1, FV.fin g1, FV.fin b1, FV.fin w1⟩)
    (h2 : read_repeat_mirrored W H img coord (0, 1)
            = ⟨FV.fin r2, FV.fin g2, FV.fin b2, FV.fin w2⟩)
    (h3 : read_repeat_mirrored W H img coord (-1, 0)
            = ⟨FV.fin r3, FV.fin g3, FV.fin b3, FV.fin w3⟩) :
    (w0 + w1 + w2 + w3 ≠ 0 →
      libwarp_single_px_fixup W H img coord
        = ⟨FV.fin ((r0 * w0 + r1 * w1 + r2 * w2 + r3 * w3) / (w0 + w1 + w2 + w3)),
           FV.fin ((g0 * w0 + g1 * w1 + g2 * w2 + g3 * w3) / (w0 + w1 + w2 + w3)),
           FV.fin ((b0 * w0 + b1 * w1 + b2 * w2 + b3 * w3) / (w0 + w1 + w2 + w3)),
           FV.fin 1⟩) ∧
    (w0 = 0 → w1 = 0 → w2 = 0 → w3 = 0 →
      libwarp_single_px_fixup W H img coord = ⟨FV.nan, FV.nan, FV.nan, FV.fin 1⟩) := by
  constructor
  · intro hS
    simp only [libwarp_single_px_fixup, hc, h0, h1, h2, h3, FV.fge, FV.add, FV.mul,
      decide_eq_true_eq]
    rw [if_neg (not_le.mpr hwc)]
    simp only [zero_add, FV.div]
    rw [if_neg hS]
    simp only [FColor.mk.injEq, FV.fin.injEq]
    refine ⟨by rw [mul_one_div], by rw [mul_one_div], by rw [mul_one_div], trivial⟩
  · intro hw0 hw1 hw2 hw3
    subst hw0 hw1 hw2 hw3
    simp only [libwarp_single_px_fixup, hc, h0, h1, h2, h3, FV.fge, FV.add, FV.mul,
      decide_eq_true_eq]
    rw [if_neg (not_le.mpr hwc)]
    simp only [mul_zero, zero_add, add_zero, FV.div]
    norm_num [FV.mul]

/-- The witness image for C4: every pixel written with color
`(2, 3, 4)` except the unwritten center `(1, 1)`. -/
def c4_witness_img : ℕ × ℕ → FColor :=
  fun c => if c = (1, 1) then ⟨FV.fin 0, FV.fin 0, FV.fin 0, FV.fin 0⟩
           else ⟨FV.fin 2, FV.fin 3, FV.fin 4, FV.fin 1⟩

/-- Witness for C4's amended theorem on a 3-by-3 image whose center is
unwritten while all four neighbors are written. -/
theorem single_px_fixup_behavior_witness :
    ((1 : ℚ) + 1 + 1 + 1 ≠ 0 →
      libwarp_single_px_fixup 3 3 c4_witness_img (1, 1)
        = ⟨FV.fin ((2 * 1 + 2 * 1 + 2 * 1 + 2 * 1) / (1 + 1 + 1 + 1)),
           FV.fin ((3 * 1 + 3 * 1 + 3 * 1 + 3 * 1) / (1 + 1 + 1 + 1)),
           FV.fin ((4 * 1 + 4 * 1 + 4 * 1 + 4 * 1) / (1 + 1 + 1 + 1)),
           FV.fin 1⟩) ∧
    ((1 : ℚ) = 0 → (1 : ℚ) = 0 → (1 : ℚ) = 0 → (1 : ℚ) = 0 →
      libwarp_single_px_fixup 3 3 c4_witness_img (1, 1)
        = ⟨FV.nan, FV.nan, FV.nan, FV.fin 1⟩) :=
  single_px_fixup_behavior 3 3 c4_witness_img (1, 1)
    0 0 0 0 2 3 4 1 2 3 4 1 2 3 4 1 2 3 4 1
    (by norm_num [c4_witness_img])
    (by norm_num)
    (by norm_num [read_repeat_mirrored, mirror_coord, c4_witness_img] <;> decide)
    (by norm_num [read_repeat_mirrored, mirror_coord, c4_witness_img] <;> decide)
    (by norm_num [read_repeat_mirrored, mirror_coord, c4_witness_img] <;> decide)
    (by norm_num [read_repeat_mirrored, mirror_coord, c4_witness_img] <;> decide)

/-- C4 counterexample: on an image whose pixels all carry validity 0 (and
finite color 0), the fixup of pixel `(1, 1)` of a 3-by-3 screen writes NaN
into all three color channels — the division by the zero neighbor-validity
sum is not guarded, so the claim that the output is always defined and
non-NaN is false on the code. -/
theorem single_px_fixup_nan_on_zero_neighbors :
    libwarp_single_px_fixup 3 3
        (fun _ => ⟨FV.fin 0, FV.fin 0, FV.fin 0, FV.fin 0⟩) (1, 1)
      = ⟨FV.nan, FV.nan, FV.nan, FV.fin 1⟩ := by
  norm_num [libwarp_single_px_fixup, read_repeat_mirrored, FV.fge, FV.add, FV.mul, FV.div]

/-! ## Program cache (`libwarp_build`, libwarp.cpp lines 96-158)

A camera setup is rejected when a screen dimension is zero; otherwise the
cache (`libwarp_state->programs`, a list of setup/program pairs in first-
request order) is scanned linearly for a `memcmp`-equal setup and the
cached program is returned unchanged; on a miss a new program is compiled
and every kernel entry point retrieved — if any is missing the call fails
with no cache insertion — and on success the new pair is appended.
Compiled programs are identified by the id they receive on creation
(`next_id`); kernel retrieval is the boolean oracle `kernels_ok` of the
setup. `memcmp` equality of the packed struct is field-wise equality. -/

/-- `LIBWARP_DEPTH_TYPE` (libwarp.h lines 69-78). -/
inductive LIBWARP_DEPTH_TYPE where
  | NORMALIZED
  | Z_DIV_W
  | LINEAR
deriving DecidableEq

/-- `libwarp_camera_setup` (libwarp.h lines 82-91). -/
structure libwarp_camera_setup where
  screen_width : ℕ
  screen_height : ℕ
  field_of_view : ℚ
  near_plane : ℚ
  far_plane : ℚ
  depth_type : LIBWARP_DEPTH_TYPE
  is_screen_origin_top_left : Bool
deriving DecidableEq

/-- `LIBWARP_ERROR_CODE` (libwarp.h lines 39-66). -/
inductive LIBWARP_ERROR_CODE where
  | SUCCESS
  | ERROR
  | NO_CONTEXT
  | NO_DEVICE
  | NO_QUEUE
  | COMPILATION_FAILURE
  | NO_KERNEL
  | INVALID_SCREEN_DIM
  | IMAGE_WRAP_FAILURE
  | IMAGE_ACQUIRE_FAILURE
  | IMAGE_RELEASE_FAILURE
  | DEPTH_BUFFER_FAILURE
  | FLOOR_INIT_FAILURE
deriving DecidableEq

/-- The cache part of `libwarp_state_struct`: the setup/program list and a
counter naming the next compiled program. -/
structure BuildState where
  programs : List (libwarp_camera_setup × ℕ)
  next_id : ℕ
deriving DecidableEq

/-- The linear scan of libwarp.cpp lines 104-109. -/
def lookup_program (progs : List (libwarp_camera_setup × ℕ))
    (s : libwarp_camera_setup) : Option ℕ :=
  (progs.find? (fun p => decide (p.1 = s))).map Prod.snd

/-- `libwarp_build`: returns the error code, the program (when one is
returned) and the state after the call. -/
def libwarp_build (kernels_ok : libwarp_camera_setup → Bool)
    (s : libwarp_camera_setup) (st : BuildState) :
    (LIBWARP_ERROR_CODE × Option ℕ) × BuildState :=
  if s.screen_width = 0 ∨ s.screen_height = 0 then
    ((LIBWARP_ERROR_CODE.INVALID_SCREEN_DIM, none), st)
  else
    match lookup_program st.programs s with
    | some pid => ((LIBWARP_ERROR_CODE.SUCCESS, some pid), st)
    | none =>
      if kernels_ok s then
        ((LIBWARP_ERROR_CODE.SUCCESS, some st.next_id),
         ⟨st.programs ++ [(s, st.next_id)], st.next_id + 1⟩)
      else ((LIBWARP_ERROR_CODE.NO_KERNEL, none), st)

theorem lookup_program_append_self (progs : List (libwarp_camera_setup × ℕ))
    (s : libwarp_camera_setup) (n : ℕ)
    (hmiss : lookup_program progs s = none) :
    lookup_program (progs ++ [(s, n)]) s = some n := by
  unfold lookup_program at *
  rw [List.find?_append]
  rcases hfind : progs.find? (fun p => decide (p.1 = s)) with _ | v
  · rw [hfind]
    have hone : List.find? (fun p => decide (p.1 = s)) [(s, n)] = some (s, n) :=
      List.find?_cons_of_pos _ (by simp)
    rw [hone]
    rfl
  · rw [hfind] at hmiss
    simp at hmiss

theorem lookup_program_eq_none (progs : List (libwarp_camera_setup × ℕ))
    (s : libwarp_camera_setup) (hno : ∀ p ∈ progs, p.1 ≠ s) :
    lookup_program progs s = none := by
  unfold lookup_program
  rw [List.find?_eq_none.mpr]
  · rfl
  · intro p hp
    simp [hno p hp]

/-- C5 (amended): once `libwarp_build` has returned a compiled program for
a setup, calling it again with a field-wise equal setup returns the same
program with the cache state unchanged (no recompilation); calling it with
a setup that differs from every cached one — in particular one changed in
a single field — and that still has nonzero screen dimensions and
retrievable kernels appends one newly compiled program whose id differs
from every cached program's id. (A single-field change that zeroes a
screen dimension is instead rejected before compilation, which is what
the counterexample shows on the original claim.) -/
theorem libwarp_build_cache_behavior (kernels_ok : libwarp_camera_setup → Bool)
    (s sb : libwarp_camera_setup) (st stA : BuildState) (i : ℕ)
    (hfirst : libwarp_build kernels_ok s st = ((LIBWARP_ERROR_CODE.SUCCESS, some i), stA))
    (hbound : ∀ p ∈ st.programs, p.2 < st.next_id)
    (hw : sb.screen_width ≠ 0) (hh : sb.screen_height ≠ 0)
    (hnotin : ∀ p ∈ stA.programs, p.1 ≠ sb)
    (hok : kernels_ok sb = true) :
    libwarp_build kernels_ok s stA = ((LIBWARP_ERROR_CODE.SUCCESS, some i), stA) ∧
    libwarp_build kernels_ok sb stA
      = ((LIBWARP_ERROR_CODE.SUCCESS, some stA.next_id),
         ⟨stA.programs ++ [(sb, stA.next_id)], stA.next_id + 1⟩) ∧
    ∀ p ∈ stA.programs, p.2 ≠ stA.next_id := by
  unfold libwarp_build at hfirst
  by_cases hdim : s.screen_width = 0 ∨ s.screen_height = 0
  · rw [if_pos hdim] at hfirst
    exact absurd (congrArg (fun x => x.1.1) hfirst) (by simp)
  · rw [if_neg hdim] at hfirst
    have hlookup2 : lookup_program stA.programs sb = none :=
      lookup_program_eq_none _ _ hnotin
    rcases hfind : lookup_program st.programs s with _ | pid
    · rw [hfind] at hfirst
      by_cases hok1 : kernels_ok s
      · rw [if_pos hok1] at hfirst
        have hi : st.next_id = i := by
          have := congrArg (fun x => x.1.2) hfirst
          simpa using this
        have hstA : stA = ⟨st.programs ++ [(s, st.next_id)], st.next_id + 1⟩ := by
          have := congrArg (fun x => x.2) hfirst
          simp at this
          exact this.symm
        constructor
        · unfold libwarp_build
          rw [if_neg hdim]
          have : lookup_program stA.programs s = some i := by
            rw [hstA, ← hi]
            exact lookup_program_append_self st.programs s st.next_id hfind
          rw [this]
        constructor
        · unfold libwarp_build
          rw [if_neg (by rw [not_or]; exact ⟨hw, hh⟩), hlookup2, if_pos hok]
        · intro p hp
          rw [hstA] at hp
          simp only [List.mem_append, List.mem_singleton] at hp
          rcases hp with hp | hp
          · have := hbound p hp
            rw [hstA]
            simp only []
            omega
          · rw [hp, hstA]
            simp only []
            omega
      · rw [if_neg hok1] at hfirst
        exact absurd (congrArg (fun x => x.1.1) hfirst) (by simp)
    · rw [hfind] at hfirst
      have hi : pid = i := by
        have := congrArg (fun x => x.1.2) hfirst
        simpa using this
      have hstA : stA = st := by
        have := congrArg (fun x => x.2) hfirst
        simpa using this.symm
      constructor
      · unfold libwarp_build
        rw [if_neg hdim, hstA, hfind, hi]
      constructor
      · unfold libwarp_build
        rw [if_neg (by rw [not_or]; exact ⟨hw, hh⟩), hlookup2, if_pos hok]
      · intro p hp
        rw [hstA] at hp
        have := hbound p hp
        rw [hstA]
        omega

theorem lookup_program_none_forall {progs : List (libwarp_camera_setup × ℕ)}
    {s : libwarp_camera_setup} (h : lookup_program progs s = none) :
    ∀ p ∈ progs, p.1 ≠ s := by
  unfold lookup_program at h
  have hf : progs.find? (fun p => decide (p.1 = s)) = none := by
    rcases hfound : progs.find? (fun p => decide (p.1 = s)) with _ | v
    · exact hfound
    · rw [hfound] at h
      simp at h
  intro p hp
  have := List.find?_eq_none.mp hf p hp
  simpa using this

/-- The concrete camera setup used by the cache witnesses. -/
def c5_setup : libwarp_camera_setup :=
  ⟨1280, 720, 72, 1/2, 500, LIBWARP_DEPTH_TYPE.NORMALIZED, true⟩

/-- `c5_setup` with only the far plane changed. -/
def c5_setup_far : libwarp_camera_setup :=
  ⟨1280, 720, 72, 1/2, 1000, LIBWARP_DEPTH_TYPE.NORMALIZED, true⟩

/-- `c5_setup` with only the screen width changed — to zero. -/
def c5_setup_zero_width : libwarp_camera_setup :=
  ⟨0, 720, 72, 1/2, 500, LIBWARP_DEPTH_TYPE.NORMALIZED, true⟩

/-- The cache state after building `c5_setup` from an empty cache. -/
def c5_state1 : BuildState := ⟨[(c5_setup, 0)], 1⟩

/-- Witness for C5's amended theorem: build `c5_setup` on the empty cache,
rebuild it (same program, cache unchanged), then build `c5_setup_far`
(far plane changed): a distinct new program is appended. -/
theorem libwarp_build_cache_behavior_witness :
    libwarp_build (fun _ => true) c5_setup c5_state1
      = ((LIBWARP_ERROR_CODE.SUCCESS, some 0), c5_state1) ∧
    libwarp_build (fun _ => true) c5_setup_far c5_state1
      = ((LIBWARP_ERROR_CODE.SUCCESS, some c5_state1.next_id),
         ⟨c5_state1.programs ++ [(c5_setup_far, c5_state1.next_id)],
          c5_state1.next_id + 1⟩) ∧
    ∀ p ∈ c5_state1.programs, p.2 ≠ c5_state1.next_id :=
  libwarp_build_cache_behavior (fun _ => true) c5_setup c5_setup_far
    ⟨[], 0⟩ c5_state1 0
    rfl
    (by simp)
    (by decide)
    (by decide)
    (by
      intro p hp
      simp only [c5_state1, List.mem_singleton] at hp
      rw [hp]
      simp only [c5_setup, c5_setup_far, ne_eq, libwarp_camera_setup.mk.injEq]
      intro hcon
      exact absurd hcon.2.2.2.2.1 (by norm_num))
    rfl

/-- C5 counterexample: `c5_setup_zero_width` differs from the cached
`c5_setup` in exactly one field (the screen width), yet `libwarp_build`
rejects it with `INVALID_SCREEN_DIM` and compiles nothing — the cache is
unchanged — so "changing any single field produces a distinct newly
compiled program that is appended to the cache" is false on the code. -/
theorem libwarp_build_single_field_zero_width_no_compile :
    (c5_setup_zero_width.screen_width ≠ c5_setup.screen_width ∧
     c5_setup_zero_width.screen_height = c5_setup.screen_height ∧
     c5_setup_zero_width.field_of_view = c5_setup.field_of_view ∧
     c5_setup_zero_width.near_plane = c5_setup.near_plane ∧
     c5_setup_zero_width.far_plane = c5_setup.far_plane ∧
     c5_setup_zero_width.depth_type = c5_setup.depth_type ∧
     c5_setup_zero_width.is_screen_origin_top_left
        = c5_setup.is_screen_origin_top_left) ∧
    libwarp_build (fun _ => true) c5_setup_zero_width c5_state1
      = ((LIBWARP_ERROR_CODE.INVALID_SCREEN_DIM, none), c5_state1) :=
  ⟨⟨by decide, rfl, rfl, rfl, rfl, rfl, rfl⟩, rfl⟩

/-- C10: the compiled-program cache never holds two field-wise equal
setups: if the cached setups are pairwise distinct, then after any
`libwarp_build` call they still are, and the call either left the state
unchanged or appended exactly one entry whose setup was not yet cached. -/
theorem libwarp_build_cache_unique (kernels_ok : libwarp_camera_setup → Bool)
    (s : libwarp_camera_setup) (st : BuildState)
    (hu : st.programs.Pairwise (fun p q => p.1 ≠ q.1)) :
    ((libwarp_build kernels_ok s st).2).programs.Pairwise (fun p q => p.1 ≠ q.1) ∧
    ((libwarp_build kernels_ok s st).2 = st ∨
     ∃ n, ((libwarp_build kernels_ok s st).2).programs = st.programs ++ [(s, n)] ∧
          ∀ p ∈ st.programs, p.1 ≠ s) := by
  unfold libwarp_build
  by_cases hdim : s.screen_width = 0 ∨ s.screen_height = 0
  · rw [if_pos hdim]
    exact ⟨hu, Or.inl rfl⟩
  · rw [if_neg hdim]
    rcases hfind : lookup_program st.programs s with _ | pid
    · have hno : ∀ p ∈ st.programs, p.1 ≠ s := lookup_program_none_forall hfind
      by_cases hok : kernels_ok s
      · rw [if_pos hok]
        refine ⟨?_, Or.inr ⟨st.next_id, rfl, hno⟩⟩
        refine List.pairwise_append.mpr ⟨hu, List.pairwise_singleton _ _, ?_⟩
        intro a ha b hb
        rw [List.mem_singleton] at hb
        rw [hb]
        exact hno a ha
      · rw [if_neg hok]
        exact ⟨hu, Or.inl rfl⟩
    · exact ⟨hu, Or.inl rfl⟩

/-- Witness for C10 on the empty cache. -/
theorem libwarp_build_cache_unique_witness :
    ((libwarp_build (fun _ => true) c5_setup ⟨[], 0⟩).2).programs.Pairwise
        (fun p q => p.1 ≠ q.1) ∧
    ((libwarp_build (fun _ => true) c5_setup ⟨[], 0⟩).2 = ⟨[], 0⟩ ∨
     ∃ n, ((libwarp_build (fun _ => true) c5_setup ⟨[], 0⟩).2).programs
            = ([] : List (libwarp_camera_setup × ℕ)) ++ [(c5_setup, n)] ∧
          ∀ p ∈ ([] : List (libwarp_camera_setup × ℕ)), p.1 ≠ c5_setup) :=
  libwarp_build_cache_unique (fun _ => true) c5_setup ⟨[], 0⟩ (by simp)

/-! ## Per-call native resource handling

`libwarp_scatter` (libwarp.cpp lines 174-216), `libwarp_gather` (lines
218-282) and `libwarp_gather_forward_only` (lines 284-309) wrap, acquire,
dispatch and release native textures in a fixed order, returning an error
code at the first failing step. Each call is modelled as a pure function
of the success of each native step (and of the kernel dispatch result),
returning the error code together with the list of native resources that
were acquired and are still held when the function returns. A release
that fails leaves its resource held and abandons the later releases, as
in the code (each failing release returns immediately). -/

/-- The fate of every native step of one `libwarp_scatter` call. -/
structure ScatterCallEnv where
  wrap_color : Bool
  wrap_depth : Bool
  wrap_motion : Bool
  wrap_output : Bool
  acq_color : Bool
  acq_depth : Bool
  acq_motion : Bool
  acq_output : Bool
  need_depth_buffer_alloc : Bool
  alloc_ok : Bool
  kernel_result : LIBWARP_ERROR_CODE
  rel_color : Bool
  rel_depth : Bool
  rel_motion : Bool
  rel_output : Bool

/-- `libwarp_scatter`: error code and the still-held acquisitions. -/
def libwarp_scatter (e : ScatterCallEnv) : LIBWARP_ERROR_CODE × List String :=
  if !e.wrap_color then (LIBWARP_ERROR_CODE.IMAGE_WRAP_FAILURE, []) else
  if !e.wrap_depth then (LIBWARP_ERROR_CODE.IMAGE_WRAP_FAILURE, []) else
  if !e.wrap_motion then (LIBWARP_ERROR_CODE.IMAGE_WRAP_FAILURE, []) else
  if !e.wrap_output then (LIBWARP_ERROR_CODE.IMAGE_WRAP_FAILURE, []) else
  if !e.acq_color then (LIBWARP_ERROR_CODE.IMAGE_ACQUIRE_FAILURE, []) else
  if !e.acq_depth then
    (LIBWARP_ERROR_CODE.IMAGE_ACQUIRE_FAILURE, ["scatter.color"]) else
  if !e.acq_motion then
    (LIBWARP_ERROR_CODE.IMAGE_ACQUIRE_FAILURE, ["scatter.color", "scatter.depth"]) else
  if !e.acq_output then
    (LIBWARP_ERROR_CODE.IMAGE_ACQUIRE_FAILURE,
     ["scatter.color", "scatter.depth", "scatter.motion"]) else
  if e.need_depth_buffer_alloc && !e.alloc_ok then
    (LIBWARP_ERROR_CODE.DEPTH_BUFFER_FAILURE,
     ["scatter.color", "scatter.depth", "scatter.motion", "scatter.output"]) else
  -- both kernel passes run; the error is delayed so the releases happen
  if !e.rel_color then
    (LIBWARP_ERROR_CODE.IMAGE_RELEASE_FAILURE,
     ["scatter.color", "scatter.depth", "scatter.motion", "scatter.output"]) else
  if !e.rel_depth then
    (LIBWARP_ERROR_CODE.IMAGE_RELEASE_FAILURE,
     ["scatter.depth", "scatter.motion", "scatter.output"]) else
  if !e.rel_motion then
    (LIBWARP_ERROR_CODE.IMAGE_RELEASE_FAILURE, ["scatter.motion", "scatter.output"]) else
  if !e.rel_output then
    (LIBWARP_ERROR_CODE.IMAGE_RELEASE_FAILURE, ["scatter.output"]) else
  (e.kernel_result, [])

/-- The fate of every native step of one `libwarp_gather_forward_only`
call. -/
structure GatherForwardCallEnv where
  wrap_color : Bool
  wrap_motion : Bool
  wrap_output : Bool
  acq_color : Bool
  acq_motion : Bool
  acq_output : Bool
  kernel_result : LIBWARP_ERROR_CODE
  rel_color : Bool
  rel_motion : Bool
  rel_output : Bool

/-- `libwarp_gather_forward_only`: error code and still-held
acquisitions. -/
def libwarp_gather_forward_only (e : GatherForwardCallEnv) :
    LIBWARP_ERROR_CODE × List String :=
  if !e.wrap_color then (LIBWARP_ERROR_CODE.IMAGE_WRAP_FAILURE, []) else
  if !e.wrap_motion then (LIBWARP_ERROR_CODE.IMAGE_WRAP_FAILURE, []) else
  if !e.wrap_output then (LIBWARP_ERROR_CODE.IMAGE_WRAP_FAILURE, []) else
  if !e.acq_color then (LIBWARP_ERROR_CODE.IMAGE_ACQUIRE_FAILURE, []) else
  if !e.acq_motion then
    (LIBWARP_ERROR_CODE.IMAGE_ACQUIRE_FAILURE, ["gather_forward.color"]) else
  if !e.acq_output then
    (LIBWARP_ERROR_CODE.IMAGE_ACQUIRE_FAILURE,
     ["gather_forward.color", "gather_forward.motion"]) else
  if !e.rel_color then
    (LIBWARP_ERROR_CODE.IMAGE_RELEASE_FAILURE,
     ["gather_forward.color", "gather_forward.motion", "gather_forward.output"]) else
  if !e.rel_motion then
    (LIBWARP_ERROR_CODE.IMAGE_RELEASE_FAILURE,
     ["gather_forward.motion", "gather_forward.output"]) else
  if !e.rel_output then
    (LIBWARP_ERROR_CODE.IMAGE_RELEASE_FAILURE, ["gather_forward.output"]) else
  (e.kernel_result, [])

/-- The fate of every native step of one `libwarp_gather` call (the wraps
are folded into one flag per call: the claim concerns acquisitions). -/
structure GatherCallEnv where
  wraps_ok : Bool
  acq_color0 : Bool
  acq_color1 : Bool
  acq_depth0 : Bool
  acq_depth1 : Bool
  acq_motion_depth0 : Bool
  acq_motion_depth1 : Bool
  acq_motion_fwd : Bool
  acq_motion_bwd : Bool
  acq_output : Bool
  kernel_result : LIBWARP_ERROR_CODE
  rel_color0 : Bool
  rel_color1 : Bool
  rel_depth0 : Bool
  rel_depth1 : Bool
  rel_motion_depth0 : Bool
  rel_motion_depth1 : Bool
  rel_motion_fwd : Bool
  rel_motion_bwd : Bool
  rel_output : Bool

/-- `libwarp_gather` (bidirectional): error code and still-held
acquisitions. -/
def libwarp_gather (e : GatherCallEnv) : LIBWARP_ERROR_CODE × List String :=
  if !e.wraps_ok then (LIBWARP_ERROR_CODE.IMAGE_WRAP_FAILURE, []) else
  if !e.acq_color0 then (LIBWARP_ERROR_CODE.IMAGE_ACQUIRE_FAILURE, []) else
  if !e.acq_color1 then
    (LIBWARP_ERROR_CODE.IMAGE_ACQUIRE_FAILURE, ["gather.color0"]) else
  if !e.acq_depth0 then
    (LIBWARP_ERROR_CODE.IMAGE_ACQUIRE_FAILURE, ["gather.color0", "gather.color1"]) else
  if !e.acq_depth1 then
    (LIBWARP_ERROR_CODE.IMAGE_ACQUIRE_FAILURE,
     ["gather.color0", "gather.color1", "gather.depth0"]) else
  if !e.acq_motion_depth0 then
    (LIBWARP_ERROR_CODE.IMAGE_ACQUIRE_FAILURE,
     ["gather.color0", "gather.color1", "gather.depth0", "gather.depth1"]) else
  if !e.acq_motion_depth1 then
    (LIBWARP_ERROR_CODE.IMAGE_ACQUIRE_FAILURE,
     ["gather.color0", "gather.color1", "gather.depth0", "gather.depth1",
      "gather.motion_depth0"]) else
  if !e.acq_motion_fwd then
    (LIBWARP_ERROR_CODE.IMAGE_ACQUIRE_FAILURE,
     ["gather.color0", "gather.color1", "gather.depth0", "gather.depth1",
      "gather.motion_depth0", "gather.motion_depth1"]) else
  if !e.acq_motion_bwd then
    (LIBWARP_ERROR_CODE.IMAGE_ACQUIRE_FAILURE,
     ["gather.color0", "gather.color1", "gather.depth0", "gather.depth1",
      "gather.motion_depth0", "gather.motion_depth1", "gather.motion_fwd"]) else
  if !e.acq_output then
    (LIBWARP_ERROR_CODE.IMAGE_ACQUIRE_FAILURE,
     ["gather.color0", "gather.color1", "gather.depth0", "gather.depth1",
      "gather.motion_depth0", "gather.motion_depth1", "gather.motion_fwd",
      "gather.motion_bwd"]) else
  if !e.rel_color0 then
    (LIBWARP_ERROR_CODE.IMAGE_RELEASE_FAILURE,
     ["gather.color0", "gather.color1", "gather.depth0", "gather.depth1",
      "gather.motion_depth0", "gather.motion_depth1", "gather.motion_fwd",
      "gather.motion_bwd", "gather.output"]) else
  if !e.rel_color1 then
    (LIBWARP_ERROR_CODE.IMAGE_RELEASE_FAILURE,
     ["gather.color1", "gather.depth0", "gather.depth1",
      "gather.motion_depth0", "gather.motion_depth1", "gather.motion_fwd",
      "gather.motion_bwd", "gather.output"]) else
  if !e.rel_depth0 then
    (LIBWARP_ERROR_CODE.IMAGE_RELEASE_FAILURE,
     ["gather.depth0", "gather.depth1", "gather.motion_depth0",
      "gather.motion_depth1", "gather.motion_fwd", "gather.motion_bwd",
      "gather.output"]) else
  if !e.rel_depth1 then
    (LIBWARP_ERROR_CODE.IMAGE_RELEASE_FAILURE,
     ["gather.depth1", "gather.motion_depth0", "gather.motion_depth1",
      "gather.motion_fwd", "gather.motion_bwd", "gather.output"]) else
  if !e.rel_motion_depth0 then
    (LIBWARP_ERROR_CODE.IMAGE_RELEASE_FAILURE,
     ["gather.motion_depth0", "gather.motion_depth1", "gather.motion_fwd",
      "gather.motion_bwd", "gather.output"]) else
  if !e.rel_motion_depth1 then
    (LIBWARP_ERROR_CODE.IMAGE_RELEASE_FAILURE,
     ["gather.motion_depth1", "gather.motion_fwd", "gather.motion_bwd",
      "gather.output"]) else
  if !e.rel_motion_fwd then
    (LIBWARP_ERROR_CODE.IMAGE_RELEASE_FAILURE,
     ["gather.motion_fwd", "gather.motion_bwd", "gather.output"]) else
  if !e.rel_motion_bwd then
    (LIBWARP_ERROR_CODE.IMAGE_RELEASE_FAILURE,
     ["gather.motion_bwd", "gather.output"]) else
  if !e.rel_output then
    (LIBWARP_ERROR_CODE.IMAGE_RELEASE_FAILURE, ["gather.output"]) else
  (e.kernel_result, [])

/-- C3 counterexample: in `libwarp_scatter`, when every wrap and acquire
succeeds and the scratch depth-buffer must grow but its allocation fails,
the call returns `DEPTH_BUFFER_FAILURE` immediately with all four
acquired textures still held — the earlier acquisitions are not released
before the error return, so the claim is false on the code. -/
theorem libwarp_scatter_leaks_on_depth_buffer_failure :
    libwarp_scatter
        ⟨true, true, true, true, true, true, true, true,
         true, false, LIBWARP_ERROR_CODE.SUCCESS, true, true, true, true⟩
      = (LIBWARP_ERROR_CODE.DEPTH_BUFFER_FAILURE,
         ["scatter.color", "scatter.depth", "scatter.motion", "scatter.output"]) ∧
    (["scatter.color", "scatter.depth", "scatter.motion", "scatter.output"]
        : List String) ≠ [] :=
  ⟨rfl, by simp⟩

/-- C3 (amended): earlier acquisitions are released before returning only
on the kernel-dispatch error path (the code delays that error so the
releases run): in each of the three warp operations, when every wrap,
acquire (and, for scatter, any needed depth-buffer allocation) and
release succeeds, the call returns the kernel dispatch result with no
native acquisition still held — whatever that kernel result is; but an
acquire failure, or scatter's depth-buffer allocation failure, returns
its error immediately with every earlier acquisition still held (as the
counterexample shows concretely). -/
theorem libwarp_release_all_on_kernel_error
    (k1 k2 k3 : LIBWARP_ERROR_CODE) (na : Bool) :
    libwarp_scatter
        ⟨true, true, true, true, true, true, true, true,
         na, true, k1, true, true, true, true⟩ = (k1, []) ∧
    libwarp_gather
        ⟨true, true, true, true, true, true, true, true, true, true,
         k2, true, true, true, true, true, true, true, true, true⟩ = (k2, []) ∧
    libwarp_gather_forward_only
        ⟨true, true, true, true, true, true, k3, true, true, true⟩ = (k3, []) := by
  refine ⟨?_, rfl, rfl⟩
  cases na <;> rfl

/-! ## Scratch depth buffer allocation and clear -/

/-- `FLT_MAX` as an exact rational: `(2^24 - 1) * 2^104`. -/
def flt_max : ℚ := (2 ^ 24 - 1) * 2 ^ 104

/-- The value `run_warp_kernel<KERNEL_SCATTER_DEPTH_PASS>` fills the
scratch depth buffer with before every dispatch (libwarp_internal.hpp
lines 126-128): `numeric_limits<float>::max()`, the largest finite
single-precision value — not positive infinity. -/
def scatter_clear_depth : FV := FV.fin flt_max

/-- The buffer contents right after the fill: every cell holds the clear
value (`n` is the buffer size in cells). -/
def scatter_depth_fill (n : ℕ) : ℕ → FV := fun _ => scatter_clear_depth

/-- The depth-buffer (re)allocation policy of `libwarp_scatter`
(libwarp.cpp lines 194-201): the required size is
`sizeof(float) * screen_width * screen_height` bytes; a new buffer of
exactly that size is created only when none exists or the current one is
smaller. Returns the size after the call and whether a reallocation
happened. -/
def scatter_depth_buffer_update (current : Option ℕ) (W H : ℕ) : ℕ × Bool :=
  let required := 4 * W * H
  match current with
  | none => (required, true)
  | some sz => if sz < required then (required, true) else (sz, false)

/-- C8 counterexample: the scratch depth buffer cells are set to
`FLT_MAX` (the largest finite single), not to positive infinity as the
claim states: cell 0 of a freshly filled buffer is a finite value and is
not `+inf`. -/
theorem scatter_clear_depth_not_infinity :
    scatter_depth_fill 16 0 ≠ FV.inf false ∧
    scatter_depth_fill 16 0 = FV.fin flt_max :=
  ⟨by decide, rfl⟩

/-- C8 (amended): before every scatter depth pass dispatch every cell of
the scratch depth buffer is set to `FLT_MAX` (the largest finite single,
so no representable scattered linear depth exceeds it — not `+inf`), and
the buffer is reallocated only when the required
`4 * screen_width * screen_height` bytes exceed the current allocation
(or none exists yet); otherwise the existing allocation is kept. -/
theorem scatter_depth_buffer_policy (W H cur i : ℕ) :
    scatter_depth_fill (4 * W * H) i = FV.fin flt_max ∧
    scatter_depth_buffer_update (some cur) W H
      = (if cur < 4 * W * H then (4 * W * H, true) else (cur, false)) ∧
    scatter_depth_buffer_update none W H = (4 * W * H, true) :=
  ⟨rfl, rfl, rfl⟩

/-! ## Bidirectional gather

`libwarp_warp_gather` (warp_kernels.hpp lines 381-475). The iterated
backward searches and the bilinear texture samples supply per-pixel data;
everything from the screen-space error computation (line 422) to the
final color selection (lines 441-472) is embedded on that data: the
errors, the combined linearized depths, and the four-way decision between
blended cross-projections and plain branch colors. -/

/-- floor's `interpolated(b, t)`: componentwise `a + (b - a) * t`.
Modelled from the spec: `interpolated` is floor-library code; §4.5 calls
it linear interpolation by `delta`. -/
def Color4.interpolated (a b : Color4) (t : ℚ) : Color4 :=
  ⟨a.r + (b.r - a.r) * t, a.g + (b.g - a.g) * t,
   a.b + (b.b - a.b) * t, a.a + (b.a - a.a) * t⟩

/-- `depth_type` (warp_kernels.hpp lines 83-90). -/
inductive depth_type where
  | normalized
  | z_div_w
  | linear
deriving DecidableEq

/-- `warp_camera::linearize_depth` (warp_kernels.hpp lines 159-178). -/
def linearize_depth (t : depth_type) (near far : ℚ) (depth : ℚ) : ℚ :=
  match t with
  | depth_type.normalized =>
      let px := -(far + near) / (near - far)
      let py := (2 * far * near) / (near - far)
      if depth = 1 then 1 else py / (depth - px)
  | depth_type.z_div_w => depth + near - depth * (near / far)
  | depth_type.linear => depth

/-- The per-pixel data the gather kernel has read or computed by line 419:
converged search positions, finally re-read motions and packed
motion-depth channels, scene depth and color samples, and the reads at
the motion-displaced locations used by the occlusion corroboration. -/
structure GatherIn where
  delta : ℚ
  p_init : ℚ × ℚ
  p_fwd : ℚ × ℚ
  p_bwd : ℚ × ℚ
  motion_fwd : ℚ × ℚ
  motion_bwd : ℚ × ℚ
  depth_fwd : ℚ
  depth_bwd : ℚ
  scene_depth_fwd : ℚ
  scene_depth_bwd : ℚ
  color_fwd : Color4
  color_bwd : Color4
  cross_color_fwd : Color4
  cross_color_bwd : Color4
  other_scene_depth_fwd : ℚ
  other_motion_depth_fwd : ℚ
  other_scene_depth_bwd : ℚ
  other_motion_depth_bwd : ℚ

/-- `float2::dot()` of a difference vector. -/
def dot2 (v : ℚ × ℚ) : ℚ := v.1 * v.1 + v.2 * v.2

/-- The out-of-bounds penalty `1.0e10f` of lines 423-424. -/
def oob_penalty (p : ℚ × ℚ) : ℚ :=
  if p.1 < 0 ∨ p.2 < 0 ∨ 1 < p.1 ∨ 1 < p.2 then 10 ^ 10 else 0

/-- `epsilon_1 * epsilon_1` with `epsilon_1 = 0.00025f` (lines 428-429). -/
def epsilon_1_sq : ℚ := (1 / 4000) * (1 / 4000)

/-- `epsilon_2 = 2.0f`, the maximum depth difference (line 438). -/
def epsilon_2 : ℚ := 2

/-- Screen-space error of the forward branch (lines 422-424). -/
def gather_err_fwd (g : GatherIn) : ℚ :=
  dot2 (g.p_fwd.1 + g.delta * g.motion_fwd.1 - g.p_init.1,
        g.p_fwd.2 + g.delta * g.motion_fwd.2 - g.p_init.2) + oob_penalty g.p_fwd

/-- Screen-space error of the backward branch (lines 425-426). -/
def gather_err_bwd (g : GatherIn) : ℚ :=
  dot2 (g.p_bwd.1 + (1 - g.delta) * g.motion_bwd.1 - g.p_init.1,
        g.p_bwd.2 + (1 - g.delta) * g.motion_bwd.2 - g.p_init.2) + oob_penalty g.p_bwd

/-- Linearized forward scene depth `z_fwd` (lines 433-434). -/
def gather_z_fwd (t : depth_type) (near far : ℚ) (g : GatherIn) : ℚ :=
  linearize_depth t near far g.scene_depth_fwd
    + g.delta * linearize_depth depth_type.z_div_w near far g.depth_fwd

/-- Linearized backward scene depth `z_bwd` (lines 435-436). -/
def gather_z_bwd (t : depth_type) (near far : ℚ) (g : GatherIn) : ℚ :=
  linearize_depth t near far g.scene_depth_bwd
    + (1 - g.delta) * linearize_depth depth_type.z_div_w near far g.depth_bwd

/-- The blended forward cross-projection color (line 444). -/
def proj_color_fwd (g : GatherIn) : Color4 :=
  g.color_fwd.interpolated g.cross_color_fwd g.delta

/-- The blended backward cross-projection color (line 445). -/
def proj_color_bwd (g : GatherIn) : Color4 :=
  g.cross_color_bwd.interpolated g.color_bwd g.delta

/-- The corroborated depth `z_fwd_other` of lines 455-456 (note: the raw
reads are combined without linearization here, unlike `z_fwd`). -/
def gather_z_fwd_other (g : GatherIn) : ℚ :=
  g.other_scene_depth_fwd + (1 - g.delta) * g.other_motion_depth_fwd

/-- The corroborated depth `z_bwd_other` of lines 459-460. -/
def gather_z_bwd_other (g : GatherIn) : ℚ :=
  g.other_scene_depth_bwd + g.delta * g.other_motion_depth_bwd

/-- The color selection of `libwarp_warp_gather` (lines 441-472). -/
def libwarp_warp_gather (t : depth_type) (near far : ℚ) (g : GatherIn) : Color4 :=
  let err_fwd := gather_err_fwd g
  let err_bwd := gather_err_bwd g
  let z_fwd := gather_z_fwd t near far g
  let z_bwd := gather_z_bwd t near far g
  let depth_diff := |z_fwd - z_bwd|
  let fwd_valid := err_fwd < epsilon_1_sq
  let bwd_valid := err_bwd < epsilon_1_sq
  if fwd_valid ∧ bwd_valid then
    if depth_diff < epsilon_2 then
      (if err_fwd < err_bwd then proj_color_fwd g else proj_color_bwd g)
    else
      if z_fwd < z_bwd then
        (if |z_fwd - gather_z_fwd_other g| < epsilon_2
         then proj_color_fwd g else g.color_fwd)
      else
        (if |z_bwd - gather_z_bwd_other g| < epsilon_2
         then proj_color_bwd g else g.color_bwd)
  else if fwd_valid then g.color_fwd
  else if bwd_valid then g.color_bwd
  else g.color_fwd.interpolated g.color_bwd g.delta

/-- C7: when both branches pass the screen-space error check but their
linearized depths differ by at least `epsilon_2`, the kernel picks the
branch with the strictly smaller depth (the depths cannot be equal here),
resamples the other frame's depth at that branch's motion-displaced
location, and outputs the blended cross-projection color when the
corroborated depth matches the chosen branch's depth within `epsilon_2`,
else that branch's plain color. -/
theorem gather_occlusion_case (t : depth_type) (near far : ℚ) (g : GatherIn)
    (hf : gather_err_fwd g < epsilon_1_sq)
    (hb : gather_err_bwd g < epsilon_1_sq)
    (hd : epsilon_2 ≤ |gather_z_fwd t near far g - gather_z_bwd t near far g|) :
    (gather_z_fwd t near far g < gather_z_bwd t near far g →
      libwarp_warp_gather t near far g
        = (if |gather_z_fwd t near far g - gather_z_fwd_other g| < epsilon_2
           then proj_color_fwd g else g.color_fwd)) ∧
    (gather_z_bwd t near far g < gather_z_fwd t near far g →
      libwarp_warp_gather t near far g
        = (if |gather_z_bwd t near far g - gather_z_bwd_other g| < epsilon_2
           then proj_color_bwd g else g.color_bwd)) ∧
    gather_z_fwd t near far g ≠ gather_z_bwd t near far g := by
  have hne : gather_z_fwd t near far g ≠ gather_z_bwd t near far g := by
    intro he
    rw [he, sub_self, abs_zero] at hd
    norm_num [epsilon_2] at hd
  refine ⟨?_, ?_, hne⟩
  · intro hz
    simp only [libwarp_warp_gather]
    rw [if_pos ⟨hf, hb⟩, if_neg (not_lt.mpr hd), if_pos hz]
  · intro hz
    simp only [libwarp_warp_gather]
    rw [if_pos ⟨hf, hb⟩, if_neg (not_lt.mpr hd), if_neg (not_lt.mpr (le_of_lt hz))]

/-- The concrete gather input for C7's witness: both branches converged
exactly (zero error), the forward branch is nearer (depth 1 against 10),
and the forward corroboration read agrees with the forward depth. -/
def c7_gather_input : GatherIn :=
  { delta := 1/2
    p_init := (1/2, 1/2)
    p_fwd := (1/2, 1/2)
    p_bwd := (1/2, 1/2)
    motion_fwd := (0, 0)
    motion_bwd := (0, 0)
    depth_fwd := 0
    depth_bwd := 0
    scene_depth_fwd := 1
    scene_depth_bwd := 10
    color_fwd := ⟨1, 0, 0, 1⟩
    color_bwd := ⟨0, 1, 0, 1⟩
    cross_color_fwd := ⟨0, 0, 1, 1⟩
    cross_color_bwd := ⟨1, 1, 0, 1⟩
    other_scene_depth_fwd := 1
    other_motion_depth_fwd := 0
    other_scene_depth_bwd := 10
    other_motion_depth_bwd := 0 }

/-- Witness for C7 at `c7_gather_input` with linear scene depths. -/
theorem gather_occlusion_case_witness :
    (gather_z_fwd depth_type.linear 0 1 c7_gather_input
        < gather_z_bwd depth_type.linear 0 1 c7_gather_input →
      libwarp_warp_gather depth_type.linear 0 1 c7_gather_input
        = (if |gather_z_fwd depth_type.linear 0 1 c7_gather_input
                - gather_z_fwd_other c7_gather_input| < epsilon_2
           then proj_color_fwd c7_gather_input
           else c7_gather_input.color_fwd)) ∧
    (gather_z_bwd depth_type.linear 0 1 c7_gather_input
        < gather_z_fwd depth_type.linear 0 1 c7_gather_input →
      libwarp_warp_gather depth_type.linear 0 1 c7_gather_input
        = (if |gather_z_bwd depth_type.linear 0 1 c7_gather_input
                - gather_z_bwd_other c7_gather_input| < epsilon_2
           then proj_color_bwd c7_gather_input
           else c7_gather_input.color_bwd)) ∧
    gather_z_fwd depth_type.linear 0 1 c7_gather_input
      ≠ gather_z_bwd depth_type.linear 0 1 c7_gather_input :=
  gather_occlusion_case depth_type.linear 0 1 c7_gather_input
    (by norm_num [gather_err_fwd, dot2, oob_penalty, epsilon_1_sq, c7_gather_input])
    (by norm_num [gather_err_bwd, dot2, oob_penalty, epsilon_1_sq, c7_gather_input])
    (by norm_num [gather_z_fwd, gather_z_bwd, linearize_depth, epsilon_2,
                  c7_gather_input])
